import Mathlib

/-!
Verification development for a parquet golden-file generator
(`src/main.cpp`).  The program seeds a Mersenne Twister with 42,
generates five in-memory columns (int32, float, int64, string, binary)
of `num_rows` values each, and writes one parquet file per entry of a
fixed (encoding, logical-type) specification table, configuring the
external writer via a three-way branch on the encoding.

Modelling conventions:
* 32-bit unsigned machine arithmetic is `Nat` with explicit `% 2 ^ 32`;
  64-bit signed arithmetic is `Int` with an explicit two's-complement
  wrap (`int64_wrap`).
* The random source `std::mt19937 rng(42)` is embedded as the infinite
  output stream of the Mersenne Twister exactly as specified by the
  C++ standard (`mt_output`); generator state is the number of raw
  outputs consumed so far, so a "state" is a cursor `s : Nat` into an
  abstract raw stream `g : Nat → Nat`.  The program instantiates
  `g := rng_stream` (seed 42).
* `std::uniform_int_distribution` is embedded by the libstdc++
  algorithm for 32-bit generators (Lemire multiply-shift with
  rejection, `_S_nd` in `bits/uniform_int_dist.h`; all uses in this
  program have a range smaller than the generator range).  The
  rejection loop of the library is unbounded; it is given explicit
  fuel and returns `none` when the fuel is exhausted.
* `std::uniform_real_distribution<float>(0, 100)` is embedded with
  exact rational arithmetic: `generate_canonical` yields `r / 2 ^ 32`
  for one raw draw `r`, and the draw returns `canonical * (b - a) + a`.
* Filesystem and writer effects are a pure world state (directories,
  files, stdout lines) plus an oracle saying which opens/writes the
  environment lets succeed; C++ exceptions become an error component.
-/

set_option autoImplicit false
set_option maxRecDepth 40000

namespace ParquetGolden

/-! ### Mersenne Twister (std::mt19937, C++ standard [rand.eng.mers]) -/

/-- Tempering step of mt19937, on 32-bit words:
`y ^= (y >> 11) & d; y ^= (y << 7) & b; y ^= (y << 15) & c; y ^= y >> 18`. -/
def temper (x : Nat) : Nat :=
  let y1 := (x ^^^ ((x >>> 11) &&& 0xFFFFFFFF)) % 2 ^ 32
  let y2 := (y1 ^^^ ((y1 <<< 7) &&& 0x9D2C5680)) % 2 ^ 32
  let y3 := (y2 ^^^ ((y2 <<< 15) &&& 0xEFC60000)) % 2 ^ 32
  (y3 ^^^ (y3 >>> 18)) % 2 ^ 32

/-- Word `k` of the infinite mt19937 sequence, given the words before it:
words `0..623` come from the seeding recurrence
`x_k = 1812433253 * (x_(k-1) ^ (x_(k-1) >> 30)) + k  (mod 2^32)`,
and words from 624 on come from the twist recurrence
`x_k = x_(k-227) ^ (y >> 1) ^ (a if y odd)` with
`y = (x_(k-624) & 0x80000000) | (x_(k-623) & 0x7FFFFFFF)`. -/
def mt_word (seed : Nat) (xs : List Nat) (k : Nat) : Nat :=
  if k = 0 then seed % 2 ^ 32
  else if k < 624 then
    let p := xs.getD (k - 1) 0
    (1812433253 * (p ^^^ (p >>> 30)) + k) % 2 ^ 32
  else
    let y := (xs.getD (k - 624) 0 &&& 0x80000000) ||| (xs.getD (k - 623) 0 &&& 0x7FFFFFFF)
    (xs.getD (k - 227) 0 ^^^ (y >>> 1) ^^^ (if y % 2 = 1 then 0x9908B0DF else 0)) % 2 ^ 32

/-- First `n` words of the mt19937 sequence for a given seed. -/
def mt_words (seed : Nat) : Nat → List Nat
  | 0 => []
  | k + 1 =>
    let xs := mt_words seed k
    xs ++ [mt_word seed xs k]

/-- The `i`-th raw output of `std::mt19937` seeded with `seed`:
the tempered word `x_(624+i)`. -/
def mt_output (seed i : Nat) : Nat :=
  temper ((mt_words seed (624 + i + 1)).getD (624 + i) 0)

/-- Fixed seed of the program-wide generator (`std::mt19937 rng(42)`). -/
def rng_seed : Nat := 42

/-- Raw output stream of the program's shared generator. -/
def rng_stream (i : Nat) : Nat := mt_output rng_seed i

/-! ### Distributions (libstdc++ algorithms) -/

/-- The rejection loop of libstdc++ `uniform_int_distribution::_S_nd`
(Lemire, "Fast Random Integer Generation in an Interval") on a 32-bit
generator: `product = g() * range` in 64 bits, `low = product mod 2^32`;
a draw is accepted once `low ≥ threshold` and the result is
`product >> 32`.  `fuel` bounds the number of draws, `none` meaning the
bound was hit (the library loop is unbounded). -/
def lemire_loop (g : Nat → Nat) (range threshold : Nat) :
    Nat → Nat → Option (Nat × Nat)
  | 0, _ => none
  | fuel + 1, s =>
    let product := g s * range
    if product % 2 ^ 32 < threshold then lemire_loop g range threshold fuel (s + 1)
    else some (product >>> 32, s + 1)

/-- libstdc++ `uniform_int_distribution(a, b)` on a 32-bit generator, in
the downscaling case (`b - a < 2^32 - 1`, true of every use in the
program): `_S_nd` with `range = b - a + 1` and
`threshold = (2^32 - range) mod range`, then add `a`.  (On the first draw
the library accepts immediately when `low ≥ range` without computing the
threshold; since `threshold < range` this is the same accept condition.) -/
def uniform_int_draw (a b : Nat) (g : Nat → Nat) (fuel s : Nat) : Option (Nat × Nat) :=
  let urange := b - a
  let uerange := urange + 1
  let threshold := (2 ^ 32 - uerange) % uerange
  (lemire_loop g uerange threshold fuel s).map fun rs => (a + rs.1, rs.2)

/-- libstdc++ `generate_canonical<float, 24, mt19937>`: one raw draw `r`,
value `r / 2^32`, in exact rational arithmetic. -/
def generate_canonical (g : Nat → Nat) (s : Nat) : ℚ × Nat :=
  ((g s : ℚ) / 2 ^ 32, s + 1)

/-- libstdc++ `uniform_real_distribution(a, b)`: `canonical * (b - a) + a`. -/
def uniform_real_draw (a b : ℚ) (g : Nat → Nat) (s : Nat) : ℚ × Nat :=
  let rc := generate_canonical g s
  (rc.1 * (b - a) + a, rc.2)

/-! ### The five value-generator lambdas of `main` -/

/-- `[] { return std::uniform_int_distribution<int32_t>(0, 10000)(rng); }` -/
def draw_int32 (g : Nat → Nat) (fuel s : Nat) : Option (Nat × Nat) :=
  uniform_int_draw 0 10000 g fuel s

/-- `[] { return std::uniform_real_distribution<float>(0.f, 100.f)(rng); }` -/
def draw_float (g : Nat → Nat) (s : Nat) : Option (ℚ × Nat) :=
  some (uniform_real_draw 0 100 g s)

/-- Two's-complement wrap of an unbounded integer into `int64_t`. -/
def int64_wrap (x : Int) : Int := (x + 2 ^ 63) % 2 ^ 64 - 2 ^ 63

/-- `[] { return static_cast<int64_t>(rng()) << 8; }` — the raw draw is
below `2^32`, the cast is exact, and the shift is multiplication by `2^8`
wrapped into `int64_t`. -/
def draw_int64 (g : Nat → Nat) (s : Nat) : Option (Int × Nat) :=
  some (int64_wrap ((g s : Int) * 2 ^ 8), s + 1)

/-- `int len = std::uniform_int_distribution<>(5, 10)(rng);
std::string s(len, 'a' + (rng() % 26));` — one length draw, then one
character draw repeated `len` times. -/
def draw_string (g : Nat → Nat) (fuel s : Nat) : Option (String × Nat) :=
  (uniform_int_draw 5 10 g fuel s).map fun ls =>
    (String.mk (List.replicate ls.1 (Char.ofNat (97 + g ls.2 % 26))), ls.2 + 1)

/-- The byte-filling loop `for (int i = 0; i < len; ++i) bytes[i] = rng() % 256;`. -/
def gen_bytes (g : Nat → Nat) : Nat → Nat → List Nat × Nat
  | 0, s => ([], s)
  | n + 1, s =>
    let rest := gen_bytes g n (s + 1)
    (g s % 256 :: rest.1, rest.2)

/-- `int len = std::uniform_int_distribution<>(3, 15)(rng);` then `len`
bytes `rng() % 256`. -/
def draw_binary (g : Nat → Nat) (fuel s : Nat) : Option (List Nat × Nat) :=
  (uniform_int_draw 3 15 g fuel s).map fun ls => gen_bytes g ls.1 ls.2

/-- `generate_array<Builder>(func, num_rows)`: append `num_rows` values
drawn from `func`, threading the generator cursor. -/
def generate_array {α : Type} (draw : Nat → Option (α × Nat)) :
    Nat → Nat → Option (List α × Nat)
  | 0, s => some ([], s)
  | n + 1, s =>
    (draw s).bind fun vs => (generate_array draw n vs.2).map fun ls => (vs.1 :: ls.1, ls.2)

/-! ### Base data (the five pre-generated columns of `main`) -/

/-- The five columns generated once in `main` and shared by every
specification of the matching logical type. -/
structure BaseData where
  int32_col : List Nat
  float_col : List ℚ
  int64_col : List Int
  string_col : List String
  binary_col : List (List Nat)
deriving DecidableEq, Repr

/-- A column value as stored in the `base_data` map (one variant per
arrow builder used in `main`). -/
inductive ColVal : Type
  | int32_col (l : List Nat)
  | float_col (l : List ℚ)
  | int64_col (l : List Int)
  | string_col (l : List String)
  | binary_col (l : List (List Nat))
deriving DecidableEq, Repr

/-- `main`'s generation of `base_data`: the five columns are produced
from the shared generator strictly in the order int32, float, int64,
string, binary, each before any file is written. -/
def gen_base_data (g : Nat → Nat) (fuel n s : Nat) : Option (BaseData × Nat) :=
  (generate_array (draw_int32 g fuel) n s).bind fun i32 =>
  (generate_array (draw_float g) n i32.2).bind fun flt =>
  (generate_array (draw_int64 g) n flt.2).bind fun i64 =>
  (generate_array (draw_string g fuel) n i64.2).bind fun str =>
  (generate_array (draw_binary g fuel) n str.2).map fun bin =>
  (⟨i32.1, flt.1, i64.1, str.1, bin.1⟩, bin.2)

/-- The keyed lookup `base_data` of `main`, as an association list. -/
def base_map (bd : BaseData) : List (String × ColVal) :=
  [("int32", .int32_col bd.int32_col),
   ("float", .float_col bd.float_col),
   ("int64", .int64_col bd.int64_col),
   ("string", .string_col bd.string_col),
   ("binary", .binary_col bd.binary_col)]

/-- `std::map::at`: `none` models the `std::out_of_range` throw. -/
def map_at (m : List (String × ColVal)) (k : String) : Option ColVal :=
  (m.find? fun p => p.1 == k).map Prod.snd

/-! ### Column specifications -/

/-- `parquet::Encoding::type` values used by the program. -/
inductive PEncoding : Type
  | PLAIN
  | PLAIN_DICTIONARY
  | RLE_DICTIONARY
  | RLE
  | DELTA_BINARY_PACKED
  | DELTA_LENGTH_BYTE_ARRAY
deriving DecidableEq, Repr

/-- The arrow logical types used by the program. -/
inductive ArrowType : Type
  | utf8
  | float32
  | int32
  | int64
  | binary
deriving DecidableEq, Repr

/-- `struct ColumnSpec` of the source. -/
structure ColumnSpec where
  encoding_name : String
  encoding : PEncoding
  type_name : String
  arrow_type : ArrowType
deriving DecidableEq, Repr

/-- The fixed specification table `specs` of `main`, in source order. -/
def specs : List ColumnSpec :=
  [⟨"PLAIN", .PLAIN, "string", .utf8⟩,
   ⟨"PLAIN", .PLAIN, "float", .float32⟩,
   ⟨"PLAIN", .PLAIN, "int32", .int32⟩,
   ⟨"PLAIN", .PLAIN, "binary", .binary⟩,
   ⟨"PLAIN_DICTIONARY", .PLAIN_DICTIONARY, "string", .utf8⟩,
   ⟨"PLAIN_DICTIONARY", .PLAIN_DICTIONARY, "float", .float32⟩,
   ⟨"PLAIN_DICTIONARY", .PLAIN_DICTIONARY, "int32", .int32⟩,
   ⟨"PLAIN_DICTIONARY", .PLAIN_DICTIONARY, "int64", .int64⟩,
   ⟨"PLAIN_DICTIONARY", .PLAIN_DICTIONARY, "binary", .binary⟩,
   ⟨"RLE_DICTIONARY", .RLE_DICTIONARY, "string", .utf8⟩,
   ⟨"RLE_DICTIONARY", .RLE_DICTIONARY, "float", .float32⟩,
   ⟨"RLE_DICTIONARY", .RLE_DICTIONARY, "int32", .int32⟩,
   ⟨"RLE_DICTIONARY", .RLE_DICTIONARY, "int64", .int64⟩,
   ⟨"RLE_DICTIONARY", .RLE_DICTIONARY, "binary", .binary⟩,
   ⟨"RLE", .RLE, "string", .utf8⟩,
   ⟨"RLE", .RLE, "float", .float32⟩,
   ⟨"RLE", .RLE, "int32", .int32⟩,
   ⟨"RLE", .RLE, "int64", .int64⟩,
   ⟨"RLE", .RLE, "binary", .binary⟩,
   ⟨"DELTA_BINARY_PACKED", .DELTA_BINARY_PACKED, "int32", .int32⟩,
   ⟨"DELTA_BINARY_PACKED", .DELTA_BINARY_PACKED, "int64", .int64⟩,
   ⟨"DELTA_LENGTH_BYTE_ARRAY", .DELTA_LENGTH_BYTE_ARRAY, "binary", .binary⟩]

/-! ### Writer properties -/

/-- The writer configuration produced by `parquet::WriterProperties::Builder`
as the program drives it: whether `enable_dictionary` / `disable_dictionary`
was called (`none` = builder default untouched), and the explicit per-column
encodings requested via `builder.encoding(col, enc)`. -/
structure WriterProperties where
  dictionary : Option Bool
  column_encodings : List (String × PEncoding)
deriving DecidableEq, Repr

/-- The three-way branch of `write_parquet` configuring the builder from
the specification's encoding. -/
def writer_properties (e : PEncoding) : WriterProperties :=
  if e = .PLAIN_DICTIONARY ∨ e = .RLE_DICTIONARY then
    ⟨some true, []⟩
  else if e = .DELTA_BINARY_PACKED ∨ e = .DELTA_LENGTH_BYTE_ARRAY then
    ⟨some false, [("data", e)]⟩
  else
    ⟨none, [("data", e)]⟩

/-! ### Filesystem, output and orchestration -/

/-- Errors terminating the run (C++ exceptions escaping `main`). -/
inductive RunError : Type
  | create_dir_failed (path : List String)
  | open_failed (path : String)
  | write_failed (path : String)
  | map_at_failed (key : String)
deriving DecidableEq, Repr

/-- Which external open/write operations the environment lets succeed,
keyed by file path. -/
structure Oracle where
  open_ok : String → Bool
  write_ok : String → Bool

/-- Contents of a completely written parquet file: the single column
"data" of the spec's arrow type, the writer configuration, and the
row-group size used by `WriteTable`. -/
structure FileContent where
  arrow_type : ArrowType
  column : ColVal
  props : WriterProperties
  row_group_size : Nat
deriving DecidableEq, Repr

/-- Observable machine state: existing directories (as component lists),
files on disk (`none` content = created/truncated but not completely
written), and lines printed to standard output. -/
structure World where
  dirs : List (List String)
  files : List (String × Option FileContent)
  prints : List String
deriving DecidableEq, Repr

/-- `fs::create_directory p` (one level, non-throwing when the directory
already exists, error when the parent is missing): `none` models the
`filesystem_error` throw. -/
def create_directory (p : List String) (dirs : List (List String)) :
    Option (List (List String)) :=
  if p ∈ dirs then some dirs
  else if p.dropLast = [] ∨ p.dropLast ∈ dirs then some (p :: dirs)
  else none

/-- Replace (or create) a file entry, as opening with truncation and
rewriting does. -/
def set_file (files : List (String × Option FileContent)) (name : String)
    (content : Option FileContent) : List (String × Option FileContent) :=
  (name, content) :: files.filter fun f => f.1 ≠ name

/-- The output path `data/<encoding-name>/<type-name>.parquet`. -/
def spec_filename (spec : ColumnSpec) : String :=
  "data/" ++ spec.encoding_name ++ "/" ++ spec.type_name ++ ".parquet"

/-- The stdout line reported for one written file. -/
def print_line (spec : ColumnSpec) : String :=
  "Wrote " ++ spec_filename spec

/-- `write_parquet(spec, array)`: ensure the directory, build the writer
properties, open the output stream (truncating), write the table in row
groups of 1024, and report the path.  The error component is `some e`
when a thrown exception aborts the run at this spec. -/
def write_parquet (ora : Oracle) (spec : ColumnSpec) (col : ColVal) (w : World) :
    World × Option RunError :=
  let dirpath := ["data", spec.encoding_name]
  let filename := spec_filename spec
  match create_directory dirpath w.dirs with
  | none => (w, some (.create_dir_failed dirpath))
  | some dirs1 =>
    let w1 := { w with dirs := dirs1 }
    if ora.open_ok filename then
      let w2 := { w1 with files := set_file w1.files filename none }
      if ora.write_ok filename then
        let content : FileContent := ⟨spec.arrow_type, col, writer_properties spec.encoding, 1024⟩
        let w3 := { w2 with files := set_file w2.files filename (some content) }
        ({ w3 with prints := w3.prints ++ [print_line spec] }, none)
      else (w2, some (.write_failed filename))
    else (w1, some (.open_failed filename))

/-- The loop of `main` over the specification table: look up the
pre-generated column by type name and write one file per spec, stopping
at the first thrown exception. -/
def run_specs (ora : Oracle) (bdm : List (String × ColVal)) :
    List ColumnSpec → World → World × Option RunError
  | [], w => (w, none)
  | sp :: rest, w =>
    match map_at bdm sp.type_name with
    | none => (w, some (.map_at_failed sp.type_name))
    | some col =>
      match write_parquet ora sp col w with
      | (w1, none) => run_specs ora bdm rest w1
      | (w1, some e) => (w1, some e)

/-- `int64_t num_rows = 1000;` -/
def num_rows : Nat := 1000

/-- The whole program for a given raw stream `g`, rejection fuel, row
count and initial world: generate the base data, then write every spec.
`none` models rejection-fuel exhaustion (which the unbounded library
loop does not have); otherwise the final world and the abort error, if
any, are returned. -/
def run_main (ora : Oracle) (g : Nat → Nat) (fuel n : Nat) (w0 : World) :
    Option (World × Option RunError) :=
  (gen_base_data g fuel n 0).map fun bds => run_specs ora (base_map bds.1) specs w0

/-- `main` proper: the shared mt19937 stream seeded with 42 and
`num_rows = 1000`. -/
def main_run (ora : Oracle) (fuel : Nat) (w0 : World) :
    Option (World × Option RunError) :=
  run_main ora rng_stream fuel num_rows w0

/-- The environment in which every open and every table write succeeds. -/
def all_ok : Oracle := ⟨fun _ => true, fun _ => true⟩

/-! ### Helper lemmas -/

theorem lemire_loop_bound (g : Nat → Nat) (range threshold : Nat)
    (hg : ∀ i, g i < 2 ^ 32) (hr : 0 < range) :
    ∀ fuel s v s', lemire_loop g range threshold fuel s = some (v, s') → v < range := by
  intro fuel
  induction fuel with
  | zero => intro s v s' h; simp [lemire_loop] at h
  | succ fuel ih =>
    intro s v s' h
    simp only [lemire_loop] at h
    split at h
    · exact ih _ _ _ h
    · have hv : (g s * range) >>> 32 = v := congrArg Prod.fst (Option.some.inj h)
      subst hv
      rw [Nat.shiftRight_eq_div_pow,
        Nat.div_lt_iff_lt_mul (by norm_num : 0 < (2 : Nat) ^ 32), Nat.mul_comm range]
      exact mul_lt_mul_of_pos_right (hg s) hr

theorem uniform_int_draw_bound (a b : Nat) (g : Nat → Nat) (fuel s v s' : Nat)
    (hg : ∀ i, g i < 2 ^ 32) (hab : a ≤ b)
    (h : uniform_int_draw a b g fuel s = some (v, s')) : a ≤ v ∧ v ≤ b := by
  unfold uniform_int_draw at h
  rcases Option.map_eq_some'.mp h with ⟨rs, hloop, heq⟩
  have hb : rs.1 < b - a + 1 :=
    lemire_loop_bound g (b - a + 1) _ hg (Nat.succ_pos _) fuel s rs.1 rs.2
      (by rw [hloop])
  have hv : a + rs.1 = v := congrArg Prod.fst heq
  omega

theorem generate_array_mem {α : Type} (draw : Nat → Option (α × Nat)) (P : α → Prop)
    (hdraw : ∀ s v s', draw s = some (v, s') → P v) :
    ∀ n s l s', generate_array draw n s = some (l, s') → ∀ v ∈ l, P v := by
  intro n
  induction n with
  | zero =>
    intro s l s' h v hv
    simp only [generate_array, Option.some.injEq, Prod.mk.injEq] at h
    rw [← h.1] at hv
    exact absurd hv (List.not_mem_nil v)
  | succ n ih =>
    intro s l s' h v hv
    simp only [generate_array] at h
    rcases Option.bind_eq_some.mp h with ⟨vs, hvs, hrest⟩
    rcases Option.map_eq_some'.mp hrest with ⟨ls, hls, heq⟩
    have hl : vs.1 :: ls.1 = l := congrArg Prod.fst heq
    subst hl
    rcases List.mem_cons.mp hv with h1 | h1
    · exact h1 ▸ hdraw _ vs.1 vs.2 (by rw [hvs])
    · exact ih _ _ _ (by rw [hls]) v h1

theorem generate_array_length {α : Type} (draw : Nat → Option (α × Nat)) :
    ∀ n s l s', generate_array draw n s = some (l, s') → l.length = n := by
  intro n
  induction n with
  | zero => intro s l s' h; simp [generate_array] at h; simp [← h.1]
  | succ n ih =>
    intro s l s' h
    simp only [generate_array] at h
    rcases Option.bind_eq_some.mp h with ⟨vs, -, hrest⟩
    rcases Option.map_eq_some'.mp hrest with ⟨ls, hls, heq⟩
    have hl : vs.1 :: ls.1 = l := congrArg Prod.fst heq
    subst hl
    simp [ih _ _ _ (show generate_array draw n vs.2 = some (ls.1, ls.2) by rw [hls])]

theorem draw_float_bound (g : Nat → Nat) (s : Nat) (hg : ∀ i, g i < 2 ^ 32)
    (q : ℚ) (s' : Nat) (h : draw_float g s = some (q, s')) : 0 ≤ q ∧ q < 100 := by
  have hq : ((g s : ℚ) / 2 ^ 32) * (100 - 0) + 0 = q :=
    congrArg Prod.fst (Option.some.inj h)
  subst hq
  constructor
  · positivity
  · have h1 : (g s : ℚ) < 2 ^ 32 := by exact_mod_cast hg s
    have h2 : (g s : ℚ) / 2 ^ 32 < 1 := (div_lt_one (by positivity)).mpr h1
    nlinarith

theorem int64_wrap_eq_of_lt (x : Int) (h0 : 0 ≤ x) (h1 : x < 2 ^ 63) :
    int64_wrap x = x := by
  unfold int64_wrap
  have h2 : (x + 2 ^ 63) % 2 ^ 64 = x + 2 ^ 63 :=
    Int.emod_eq_of_lt (by omega) (by omega)
  omega

theorem draw_int64_eq (g : Nat → Nat) (hg : ∀ i, g i < 2 ^ 32) (s : Nat) :
    draw_int64 g s = some ((g s : Int) * 2 ^ 8, s + 1) := by
  have hgs : (g s : Int) < 2 ^ 32 := by exact_mod_cast hg s
  have h2 : (g s : Int) * 2 ^ 8 < 2 ^ 32 * 2 ^ 8 :=
    mul_lt_mul_of_pos_right hgs (by norm_num)
  unfold draw_int64
  rw [int64_wrap_eq_of_lt _ (mul_nonneg (Int.natCast_nonneg _) (by norm_num))
    (lt_of_lt_of_le h2 (by norm_num))]

theorem draw_string_shape (g : Nat → Nat) (fuel s : Nat) (hg : ∀ i, g i < 2 ^ 32)
    (str : String) (s' : Nat) (h : draw_string g fuel s = some (str, s')) :
    (5 ≤ str.length ∧ str.length ≤ 10) ∧
      ∃ r, str.data = List.replicate str.length (Char.ofNat (97 + r % 26)) := by
  unfold draw_string at h
  rcases Option.map_eq_some'.mp h with ⟨ls, hls, heq⟩
  have hbound := uniform_int_draw_bound 5 10 g fuel s ls.1 ls.2 hg (by norm_num)
    (by rw [hls])
  have hstr : String.mk (List.replicate ls.1 (Char.ofNat (97 + g ls.2 % 26))) = str :=
    congrArg Prod.fst heq
  subst hstr
  refine ⟨?_, ⟨g ls.2, ?_⟩⟩
  · simpa [String.length] using hbound
  · simp [String.length]

theorem gen_bytes_spec (g : Nat → Nat) : ∀ n s,
    (gen_bytes g n s).1.length = n ∧ (gen_bytes g n s).2 = s + n ∧
      ∀ b ∈ (gen_bytes g n s).1, b ≤ 255 := by
  intro n
  induction n with
  | zero => intro s; simp [gen_bytes]
  | succ n ih =>
    intro s
    obtain ⟨h1, h2, h3⟩ := ih (s + 1)
    refine ⟨by simp [gen_bytes, h1], by simp [gen_bytes, h2]; omega, ?_⟩
    intro b hb
    simp only [gen_bytes] at hb
    rcases List.mem_cons.mp hb with h4 | h4
    · subst h4
      have := Nat.mod_lt (g s) (show 0 < 256 by norm_num)
      omega
    · exact h3 b h4

theorem draw_binary_shape (g : Nat → Nat) (fuel s : Nat) (hg : ∀ i, g i < 2 ^ 32)
    (bs : List Nat) (s' : Nat) (h : draw_binary g fuel s = some (bs, s')) :
    (3 ≤ bs.length ∧ bs.length ≤ 15) ∧ ∀ b ∈ bs, b ≤ 255 := by
  unfold draw_binary at h
  rcases Option.map_eq_some'.mp h with ⟨ls, hls, heq⟩
  have hbound := uniform_int_draw_bound 3 15 g fuel s ls.1 ls.2 hg (by norm_num)
    (by rw [hls])
  obtain ⟨hlen, hcur, hmem⟩ := gen_bytes_spec g ls.1 ls.2
  have hbs : (gen_bytes g ls.1 ls.2).1 = bs := congrArg Prod.fst heq
  rw [hbs] at hlen hmem
  exact ⟨⟨by omega, by omega⟩, hmem⟩

theorem generate_array_const {α : Type} (draw : Nat → Option (α × Nat)) (f : Nat → α)
    (k : Nat) (h : ∀ s, draw s = some (f s, s + k)) :
    ∀ n s, generate_array draw n s =
      some ((List.range n).map fun i => f (s + k * i), s + k * n) := by
  intro n
  induction n with
  | zero => intro s; simp [generate_array]
  | succ n ih =>
    intro s
    simp only [generate_array, h s, Option.some_bind, ih (s + k), Option.map_some',
      Option.some.injEq, Prod.mk.injEq]
    refine ⟨?_, by ring⟩
    rw [List.range_succ_eq_map, List.map_cons, List.map_map]
    refine congrArg₂ List.cons (by simp) ?_
    exact List.map_congr_left fun i _ => congrArg f (by simp [Function.comp]; ring)

theorem run_specs_append (ora : Oracle) (bdm : List (String × ColVal)) :
    ∀ (l1 l2 : List ColumnSpec) (w : World),
      run_specs ora bdm (l1 ++ l2) w =
        match run_specs ora bdm l1 w with
        | (w1, none) => run_specs ora bdm l2 w1
        | (w1, some e) => (w1, some e) := by
  intro l1
  induction l1 with
  | nil => intro l2 w; simp [run_specs]
  | cons sp rest ih =>
    intro l2 w
    cases hm : map_at bdm sp.type_name with
    | none => simp [run_specs, hm]
    | some col =>
      cases hwp : write_parquet ora sp col w with
      | mk w1 err =>
        cases err with
        | none =>
          simp only [List.cons_append, run_specs, hm, hwp]
          exact ih l2 w1
        | some e => simp [run_specs, hm, hwp]

theorem write_parquet_failure (ora : Oracle) (sp : ColumnSpec) (col : ColVal)
    (w w1 : World) (e : RunError) (h : write_parquet ora sp col w = (w1, some e)) :
    w1.prints = w.prints ∧
      (w1.files = w.files ∨ w1.files = set_file w.files (spec_filename sp) none) := by
  simp only [write_parquet] at h
  cases hc : create_directory ["data", sp.encoding_name] w.dirs with
  | none =>
    rw [hc] at h
    have hw : w = w1 := congrArg Prod.fst h
    subst hw
    simp
  | some dirs1 =>
    rw [hc] at h
    cases ho : ora.open_ok (spec_filename sp) with
    | false =>
      rw [ho] at h
      simp only [Bool.false_eq_true, if_false] at h
      have hw : (⟨dirs1, w.files, w.prints⟩ : World) = w1 := congrArg Prod.fst h
      rw [← hw]
      simp
    | true =>
      rw [ho] at h
      simp only [if_true] at h
      cases hwr : ora.write_ok (spec_filename sp) with
      | false =>
        rw [hwr] at h
        simp only [Bool.false_eq_true, if_false] at h
        have hw : (⟨dirs1, set_file w.files (spec_filename sp) none, w.prints⟩ : World) = w1 :=
          congrArg Prod.fst h
        rw [← hw]
        simp
      | true =>
        rw [hwr] at h
        simp only [if_true] at h
        have h2 : (none : Option RunError) = some e := congrArg Prod.snd h
        simp at h2

theorem create_directory_sub (e : String) (dirs : List (List String))
    (hdata : ["data"] ∈ dirs) :
    ∃ dirs1, create_directory ["data", e] dirs = some dirs1 ∧
      ["data", e] ∈ dirs1 ∧ ["data"] ∈ dirs1 ∧
      create_directory ["data", e] dirs1 = some dirs1 := by
  by_cases hp : ["data", e] ∈ dirs
  · exact ⟨dirs, by simp [create_directory, hp], hp, hdata, by simp [create_directory, hp]⟩
  · refine ⟨["data", e] :: dirs, ?_, by simp, by simp [hdata], ?_⟩
    · simp [create_directory, hp, hdata,
        show (["data", e] : List String).dropLast = ["data"] from rfl]
    · simp [create_directory]

theorem map_at_base_isSome (bd : BaseData) (sp : ColumnSpec) (hsp : sp ∈ specs) :
    (map_at (base_map bd) sp.type_name).isSome := by
  fin_cases hsp <;> rfl

theorem run_specs_all_ok (bd : BaseData) :
    ∀ (l : List ColumnSpec) (w : World), ["data"] ∈ w.dirs →
      (∀ sp ∈ l, (map_at (base_map bd) sp.type_name).isSome) →
      ∃ w1, run_specs all_ok (base_map bd) l w = (w1, none) ∧
        w1.prints = w.prints ++ l.map print_line ∧ ["data"] ∈ w1.dirs := by
  intro l
  induction l with
  | nil => intro w hw _; exact ⟨w, rfl, by simp, hw⟩
  | cons sp rest ih =>
    intro w hw hall
    obtain ⟨col, hcol⟩ := Option.isSome_iff_exists.mp (hall sp (by simp))
    obtain ⟨dirs1, hcd, hmem, hdata1, _⟩ := create_directory_sub sp.encoding_name w.dirs hw
    have hwp : write_parquet all_ok sp col w =
        (⟨dirs1,
          set_file (set_file w.files (spec_filename sp) none) (spec_filename sp)
            (some ⟨sp.arrow_type, col, writer_properties sp.encoding, 1024⟩),
          w.prints ++ [print_line sp]⟩, none) := by
      simp only [write_parquet, hcd, all_ok, if_true]
    obtain ⟨w1, hrun, hpr, hd⟩ :=
      ih ⟨dirs1,
          set_file (set_file w.files (spec_filename sp) none) (spec_filename sp)
            (some ⟨sp.arrow_type, col, writer_properties sp.encoding, 1024⟩),
          w.prints ++ [print_line sp]⟩
        hdata1 (fun s hs => hall s (by simp [hs]))
    refine ⟨w1, ?_, ?_, hd⟩
    · simp only [run_specs, hcol, hwp]
      exact hrun
    · rw [hpr]
      simp

theorem gen_base_data_const (g : Nat → Nat) (fuel : Nat)
    (f1 : Nat → Nat) (f2 : Nat → ℚ) (f3 : Nat → Int) (f4 : Nat → String)
    (f5 : Nat → List Nat) (k1 k2 k3 k4 k5 : Nat)
    (h1 : ∀ s, draw_int32 g fuel s = some (f1 s, s + k1))
    (h2 : ∀ s, draw_float g s = some (f2 s, s + k2))
    (h3 : ∀ s, draw_int64 g s = some (f3 s, s + k3))
    (h4 : ∀ s, draw_string g fuel s = some (f4 s, s + k4))
    (h5 : ∀ s, draw_binary g fuel s = some (f5 s, s + k5)) (n s : Nat) :
    gen_base_data g fuel n s =
      some (⟨(List.range n).map fun i => f1 (s + k1 * i),
             (List.range n).map fun i => f2 (s + k1 * n + k2 * i),
             (List.range n).map fun i => f3 (s + k1 * n + k2 * n + k3 * i),
             (List.range n).map fun i => f4 (s + k1 * n + k2 * n + k3 * n + k4 * i),
             (List.range n).map fun i =>
               f5 (s + k1 * n + k2 * n + k3 * n + k4 * n + k5 * i)⟩,
            s + k1 * n + k2 * n + k3 * n + k4 * n + k5 * n) := by
  unfold gen_base_data
  rw [generate_array_const _ f1 k1 h1 n s]
  simp only [Option.some_bind]
  rw [generate_array_const _ f2 k2 h2 n (s + k1 * n)]
  simp only [Option.some_bind]
  rw [generate_array_const _ f3 k3 h3 n (s + k1 * n + k2 * n)]
  simp only [Option.some_bind]
  rw [generate_array_const _ f4 k4 h4 n (s + k1 * n + k2 * n + k3 * n)]
  simp only [Option.some_bind]
  rw [generate_array_const _ f5 k5 h5 n (s + k1 * n + k2 * n + k3 * n + k4 * n)]
  simp only [Option.map_some']

theorem draw_int32_one (s : Nat) : draw_int32 (fun _ => 1) 1 s = some (0, s + 1) := by
  simp [draw_int32, uniform_int_draw, lemire_loop]

theorem draw_float_one (s : Nat) :
    draw_float (fun _ => 1) s =
      some (((1 : Nat) : ℚ) / 2 ^ 32 * (100 - 0) + 0, s + 1) := rfl

theorem draw_int64_one (s : Nat) :
    draw_int64 (fun _ => 1) s =
      some (int64_wrap (((1 : Nat) : Int) * 2 ^ 8), s + 1) := rfl

theorem draw_string_one (s : Nat) :
    draw_string (fun _ => 1) 1 s =
      some (String.mk (List.replicate 5 (Char.ofNat 98)), s + 2) := by
  simp [draw_string, uniform_int_draw, lemire_loop, Nat.add_assoc]

theorem draw_binary_one (s : Nat) :
    draw_binary (fun _ => 1) 1 s = some ([1, 1, 1], s + 4) := by
  simp [draw_binary, uniform_int_draw, lemire_loop, gen_bytes, Nat.add_assoc]

/-! ### Claims -/

/-- C1: for every column specification the Writer Properties Builder maps the
encoding by a three-way branch: a dictionary identifier (PLAIN_DICTIONARY or
RLE_DICTIONARY) enables dictionary encoding and sets no explicit column
encoding; DELTA_BINARY_PACKED or DELTA_LENGTH_BYTE_ARRAY disables dictionary
encoding and explicitly requests that encoding for column "data"; otherwise
(PLAIN, RLE) it explicitly requests that encoding for column "data" without
touching the dictionary setting. -/
theorem claim_c1_writer_properties (e : PEncoding) :
    ((e = .PLAIN_DICTIONARY ∨ e = .RLE_DICTIONARY) →
      writer_properties e = ⟨some true, []⟩) ∧
    ((e = .DELTA_BINARY_PACKED ∨ e = .DELTA_LENGTH_BYTE_ARRAY) →
      writer_properties e = ⟨some false, [("data", e)]⟩) ∧
    ((e = .PLAIN ∨ e = .RLE) →
      writer_properties e = ⟨none, [("data", e)]⟩) := by
  cases e <;> decide

/-- Witness for C1 at the three branch representatives. -/
theorem claim_c1_witness :
    writer_properties .PLAIN_DICTIONARY = ⟨some true, []⟩ ∧
    writer_properties .DELTA_BINARY_PACKED =
      ⟨some false, [("data", .DELTA_BINARY_PACKED)]⟩ ∧
    writer_properties .PLAIN = ⟨none, [("data", .PLAIN)]⟩ :=
  ⟨(claim_c1_writer_properties .PLAIN_DICTIONARY).1 (Or.inl rfl),
   (claim_c1_writer_properties .DELTA_BINARY_PACKED).2.1 (Or.inl rfl),
   (claim_c1_writer_properties .PLAIN).2.2 (Or.inl rfl)⟩

/-- C2: the specification table is exactly the fixed ordered list of
(encoding, logical type) pairs: PLAIN with string, float, int32, binary (no
int64); PLAIN_DICTIONARY, RLE_DICTIONARY and RLE each with string, float,
int32, int64, binary; DELTA_BINARY_PACKED with int32 and int64 only;
DELTA_LENGTH_BYTE_ARRAY with binary only; the delta encodings are paired
with no other type. -/
theorem claim_c2_specs_table :
    specs.map (fun s => (s.encoding_name, s.type_name)) =
      [("PLAIN", "string"), ("PLAIN", "float"), ("PLAIN", "int32"),
       ("PLAIN", "binary"),
       ("PLAIN_DICTIONARY", "string"), ("PLAIN_DICTIONARY", "float"),
       ("PLAIN_DICTIONARY", "int32"), ("PLAIN_DICTIONARY", "int64"),
       ("PLAIN_DICTIONARY", "binary"),
       ("RLE_DICTIONARY", "string"), ("RLE_DICTIONARY", "float"),
       ("RLE_DICTIONARY", "int32"), ("RLE_DICTIONARY", "int64"),
       ("RLE_DICTIONARY", "binary"),
       ("RLE", "string"), ("RLE", "float"), ("RLE", "int32"), ("RLE", "int64"),
       ("RLE", "binary"),
       ("DELTA_BINARY_PACKED", "int32"), ("DELTA_BINARY_PACKED", "int64"),
       ("DELTA_LENGTH_BYTE_ARRAY", "binary")] ∧
    specs.map (fun s => s.encoding) =
      [.PLAIN, .PLAIN, .PLAIN, .PLAIN,
       .PLAIN_DICTIONARY, .PLAIN_DICTIONARY, .PLAIN_DICTIONARY,
       .PLAIN_DICTIONARY, .PLAIN_DICTIONARY,
       .RLE_DICTIONARY, .RLE_DICTIONARY, .RLE_DICTIONARY, .RLE_DICTIONARY,
       .RLE_DICTIONARY,
       .RLE, .RLE, .RLE, .RLE, .RLE,
       .DELTA_BINARY_PACKED, .DELTA_BINARY_PACKED,
       .DELTA_LENGTH_BYTE_ARRAY] ∧
    ((specs.filter fun s => s.encoding == .DELTA_BINARY_PACKED).all
      fun s => s.type_name == "int32" || s.type_name == "int64") = true ∧
    ((specs.filter fun s => s.encoding == .DELTA_LENGTH_BYTE_ARRAY).all
      fun s => s.type_name == "binary") = true := by
  decide

/-- C3: before opening each output file the orchestrator ensures that
`data/<encoding-name>/` exists, and the create is idempotent: it succeeds both
when the directory does not yet exist and when it already exists, whenever the
parent directory `data` exists (the state in which the run can otherwise
proceed); moreover after `write_parquet` the directory exists regardless of
how the open and the table write fare. -/
theorem claim_c3_create_directory (spec : ColumnSpec) (_hspec : spec ∈ specs)
    (dirs : List (List String)) (hdata : ["data"] ∈ dirs) :
    (∃ dirs1, create_directory ["data", spec.encoding_name] dirs = some dirs1 ∧
      ["data", spec.encoding_name] ∈ dirs1 ∧
      create_directory ["data", spec.encoding_name] dirs1 = some dirs1) ∧
    ∀ ora col w, w.dirs = dirs →
      ["data", spec.encoding_name] ∈ ((write_parquet ora spec col w).1).dirs := by
  obtain ⟨dirs1, hcd, hmem, -, hidem⟩ := create_directory_sub spec.encoding_name dirs hdata
  refine ⟨⟨dirs1, hcd, hmem, hidem⟩, ?_⟩
  intro ora col w hwdirs
  simp only [write_parquet, hwdirs, hcd]
  cases ho : ora.open_ok (spec_filename spec) <;>
    cases hw2 : ora.write_ok (spec_filename spec) <;> simp [ho, hw2, hmem]

/-- Witness for C3 at the first specification, a world where only `data`
exists, and an environment that lets everything succeed. -/
theorem claim_c3_witness :
    ["data", "PLAIN"] ∈
      ((write_parquet all_ok ⟨"PLAIN", .PLAIN, "string", .utf8⟩ (.string_col [])
        ⟨[["data"]], [], []⟩).1).dirs :=
  (claim_c3_create_directory ⟨"PLAIN", .PLAIN, "string", .utf8⟩ (by decide) [["data"]]
    (by decide)).2 all_ok (.string_col []) ⟨[["data"]], [], []⟩ rfl

/-- C4: over any raw 32-bit stream, every generated int32 value lies in
[0, 10000], every generated float value lies in [0, 100), and every generated
binary value has length in [3, 15] with each byte in [0, 255], for all
`num_rows = 1000` elements of each generated column. -/
theorem claim_c4_value_ranges (g : Nat → Nat) (hg : ∀ i, g i < 2 ^ 32)
    (fuel s1 s2 s3 e1 e2 e3 : Nat) (l32 : List Nat) (lf : List ℚ)
    (lb : List (List Nat))
    (h32 : generate_array (draw_int32 g fuel) num_rows s1 = some (l32, e1))
    (hf : generate_array (draw_float g) num_rows s2 = some (lf, e2))
    (hb : generate_array (draw_binary g fuel) num_rows s3 = some (lb, e3)) :
    (∀ v ∈ l32, 0 ≤ v ∧ v ≤ 10000) ∧
    (∀ q ∈ lf, 0 ≤ q ∧ q < 100) ∧
    (∀ bs ∈ lb, (3 ≤ bs.length ∧ bs.length ≤ 15) ∧ ∀ b ∈ bs, b ≤ 255) := by
  refine ⟨?_, ?_, ?_⟩
  · exact generate_array_mem _ _
      (fun s v s' h => ⟨Nat.zero_le v,
        (uniform_int_draw_bound 0 10000 g fuel s v s' hg (by norm_num) h).2⟩)
      num_rows s1 l32 e1 h32
  · exact generate_array_mem _ _
      (fun s v s' h => draw_float_bound g s hg v s' h) num_rows s2 lf e2 hf
  · exact generate_array_mem _ _
      (fun s v s' h => draw_binary_shape g fuel s hg v s' h) num_rows s3 lb e3 hb

/-- Witness for C4 on the constant raw stream 1 with fuel 1. -/
theorem claim_c4_witness :
    (∀ v ∈ (List.range num_rows).map (fun _ => (0 : Nat)), 0 ≤ v ∧ v ≤ 10000) ∧
    (∀ q ∈ (List.range num_rows).map
        (fun _ => ((1 : Nat) : ℚ) / 2 ^ 32 * (100 - 0) + 0), 0 ≤ q ∧ q < 100) ∧
    (∀ bs ∈ (List.range num_rows).map (fun _ => [1, 1, 1]),
      (3 ≤ bs.length ∧ bs.length ≤ 15) ∧ ∀ b ∈ bs, b ≤ 255) :=
  claim_c4_value_ranges (fun _ => 1) (fun _ => by norm_num) 1 0 0 0 _ _ _ _ _ _
    (generate_array_const (draw_int32 (fun _ => 1) 1) (fun _ => (0 : Nat)) 1
      draw_int32_one num_rows 0)
    (generate_array_const (draw_float (fun _ => 1))
      (fun _ => ((1 : Nat) : ℚ) / 2 ^ 32 * (100 - 0) + 0) 1 draw_float_one num_rows 0)
    (generate_array_const (draw_binary (fun _ => 1) 1)
      (fun _ => [1, 1, 1]) 4 draw_binary_one num_rows 0)

/-- C5: every generated text value is a run of one letter: its length lies in
[5, 10] and all of its characters are one character chosen once per string as
`'a' + (r mod 26)` for a single generator draw `r`. -/
theorem claim_c5_string_shape (g : Nat → Nat) (hg : ∀ i, g i < 2 ^ 32)
    (fuel s e : Nat) (l : List String)
    (h : generate_array (draw_string g fuel) num_rows s = some (l, e)) :
    ∀ str ∈ l, (5 ≤ str.length ∧ str.length ≤ 10) ∧
      ∃ r, str.data = List.replicate str.length (Char.ofNat (97 + r % 26)) :=
  generate_array_mem _ _ (fun s0 v s0' hd => draw_string_shape g fuel s0 hg v s0' hd)
    num_rows s l e h

/-- Witness for C5 on the constant raw stream 1 with fuel 1. -/
theorem claim_c5_witness :
    (5 ≤ (String.mk (List.replicate 5 (Char.ofNat 98))).length ∧
      (String.mk (List.replicate 5 (Char.ofNat 98))).length ≤ 10) ∧
    ∃ r, (String.mk (List.replicate 5 (Char.ofNat 98))).data =
      List.replicate (String.mk (List.replicate 5 (Char.ofNat 98))).length
        (Char.ofNat (97 + r % 26)) :=
  claim_c5_string_shape (fun _ => 1) (fun _ => by norm_num) 1 0 _ _
    (generate_array_const (draw_string (fun _ => 1) 1)
      (fun _ => String.mk (List.replicate 5 (Char.ofNat 98))) 2
      draw_string_one num_rows 0)
    (String.mk (List.replicate 5 (Char.ofNat 98)))
    (List.mem_map_of_mem _
      (show (0 : Nat) ∈ List.range num_rows from List.mem_range.mpr (by decide)))

/-- C6: every generated int64 value is a raw 32-bit generator output cast to
64 bits and left-shifted by 8 bits (multiplied by `2^8`): the two's-complement
wrap is the identity (no overflow or truncation), and every generated value is
non-negative, a multiple of 256, and at most `(2^32 - 1) * 256`. -/
theorem claim_c6_int64_shift (g : Nat → Nat) (hg : ∀ i, g i < 2 ^ 32) :
    (∀ s, draw_int64 g s = some ((g s : Int) * 2 ^ 8, s + 1)) ∧
    ∀ s e l, generate_array (draw_int64 g) num_rows s = some (l, e) →
      ∀ v ∈ l, 0 ≤ v ∧ (256 : Int) ∣ v ∧ v ≤ (2 ^ 32 - 1) * 2 ^ 8 ∧
        ∃ r : Nat, r < 2 ^ 32 ∧ v = (r : Int) * 2 ^ 8 := by
  refine ⟨draw_int64_eq g hg, ?_⟩
  intro s e l h
  refine generate_array_mem _ _ ?_ num_rows s l e h
  intro s0 v s0' hd
  rw [draw_int64_eq g hg s0] at hd
  have hv : (g s0 : Int) * 2 ^ 8 = v := congrArg Prod.fst (Option.some.inj hd)
  subst hv
  have hgs : (g s0 : Int) < 2 ^ 32 := by exact_mod_cast hg s0
  have hge : (0 : Int) ≤ (g s0 : Int) := Int.natCast_nonneg _
  refine ⟨by positivity, ⟨(g s0 : Int), by ring⟩, ?_, ⟨g s0, hg s0, rfl⟩⟩
  have h2 : (g s0 : Int) ≤ 2 ^ 32 - 1 := by omega
  exact mul_le_mul_of_nonneg_right h2 (by norm_num)

/-- Witness for C6 on the constant raw stream 1 at cursor 0. -/
theorem claim_c6_witness :
    draw_int64 (fun _ => 1) 0 = some (((1 : Nat) : Int) * 2 ^ 8, 0 + 1) :=
  (claim_c6_int64_shift (fun _ => 1) (fun _ => by norm_num)).1 0

/-- C7: the five base columns are generated from the one shared stream in the
fixed order int32, float, int64, string, binary, each column exactly once with
`num_rows = 1000` values, threading the generator cursor from one column to
the next; and the whole generation happens before any file is written (the
run first evaluates `gen_base_data`, then folds the spec table). -/
theorem claim_c7_generation_order (g : Nat → Nat) (fuel s e : Nat) (bd : BaseData)
    (h : gen_base_data g fuel num_rows s = some (bd, e)) :
    (∃ s1 s2 s3 s4,
      generate_array (draw_int32 g fuel) num_rows s = some (bd.int32_col, s1) ∧
      generate_array (draw_float g) num_rows s1 = some (bd.float_col, s2) ∧
      generate_array (draw_int64 g) num_rows s2 = some (bd.int64_col, s3) ∧
      generate_array (draw_string g fuel) num_rows s3 = some (bd.string_col, s4) ∧
      generate_array (draw_binary g fuel) num_rows s4 = some (bd.binary_col, e)) ∧
    bd.int32_col.length = num_rows ∧ bd.float_col.length = num_rows ∧
    bd.int64_col.length = num_rows ∧ bd.string_col.length = num_rows ∧
    bd.binary_col.length = num_rows ∧
    ∀ ora w0, run_main ora g fuel num_rows w0 =
      (gen_base_data g fuel num_rows 0).map fun bds =>
        run_specs ora (base_map bds.1) specs w0 := by
  unfold gen_base_data at h
  rcases Option.bind_eq_some.mp h with ⟨i32, h1, h⟩
  rcases Option.bind_eq_some.mp h with ⟨flt, h2, h⟩
  rcases Option.bind_eq_some.mp h with ⟨i64, h3, h⟩
  rcases Option.bind_eq_some.mp h with ⟨str, h4, h⟩
  rcases Option.map_eq_some'.mp h with ⟨bin, h5, heq⟩
  have hbd : (⟨i32.1, flt.1, i64.1, str.1, bin.1⟩ : BaseData) = bd := congrArg Prod.fst heq
  have he : bin.2 = e := congrArg Prod.snd heq
  subst hbd
  subst he
  refine ⟨⟨i32.2, flt.2, i64.2, str.2, by rw [h1], by rw [h2], by rw [h3], by rw [h4],
    by rw [h5]⟩, ?_, ?_, ?_, ?_, ?_, fun ora w0 => rfl⟩
  · exact generate_array_length _ num_rows s i32.1 i32.2 (by rw [h1])
  · exact generate_array_length _ num_rows i32.2 flt.1 flt.2 (by rw [h2])
  · exact generate_array_length _ num_rows flt.2 i64.1 i64.2 (by rw [h3])
  · exact generate_array_length _ num_rows i64.2 str.1 str.2 (by rw [h4])
  · exact generate_array_length _ num_rows str.2 bin.1 bin.2 (by rw [h5])

/-- Witness for C7 on the constant raw stream 1 with fuel 1: the base data is
generated in order and each column has `num_rows` elements. -/
theorem claim_c7_witness :
    ((List.range num_rows).map fun _ => (0 : Nat)).length = num_rows ∧
    ((List.range num_rows).map fun _ =>
      ((1 : Nat) : ℚ) / 2 ^ 32 * (100 - 0) + 0).length = num_rows ∧
    ((List.range num_rows).map fun _ =>
      int64_wrap (((1 : Nat) : Int) * 2 ^ 8)).length = num_rows ∧
    ((List.range num_rows).map fun _ =>
      String.mk (List.replicate 5 (Char.ofNat 98))).length = num_rows ∧
    ((List.range num_rows).map fun _ => ([1, 1, 1] : List Nat)).length = num_rows := by
  have t := claim_c7_generation_order (fun _ => 1) 1 0 _ _
    (gen_base_data_const (fun _ => 1) 1 (fun _ => (0 : Nat))
      (fun _ => ((1 : Nat) : ℚ) / 2 ^ 32 * (100 - 0) + 0)
      (fun _ => int64_wrap (((1 : Nat) : Int) * 2 ^ 8))
      (fun _ => String.mk (List.replicate 5 (Char.ofNat 98)))
      (fun _ => ([1, 1, 1] : List Nat)) 1 1 1 2 4
      draw_int32_one draw_float_one draw_int64_one draw_string_one draw_binary_one
      num_rows 0)
  exact ⟨t.2.1, t.2.2.1, t.2.2.2.1, t.2.2.2.2.1, t.2.2.2.2.2.1⟩

/-- C8: if opening the output stream or writing the table fails for a
specification, the whole run aborts there: the result of running the full
table is the failing spec's error and world, independent of all later
specifications, with no output line printed for the failed file and no
cleanup of the partially written file (the files either are untouched, when
the open failed, or keep the truncated entry, when the table write failed). -/
theorem claim_c8_abort (ora : Oracle) (bdm : List (String × ColVal))
    (l1 l2 : List ColumnSpec) (sp : ColumnSpec) (col : ColVal)
    (w w1 w2 : World) (e : RunError)
    (hpre : run_specs ora bdm l1 w = (w1, none))
    (hcol : map_at bdm sp.type_name = some col)
    (hfail : write_parquet ora sp col w1 = (w2, some e)) :
    run_specs ora bdm (l1 ++ sp :: l2) w = (w2, some e) ∧
    w2.prints = w1.prints ∧
    (w2.files = w1.files ∨ w2.files = set_file w1.files (spec_filename sp) none) := by
  obtain ⟨hp, hf⟩ := write_parquet_failure ora sp col w1 w2 e hfail
  refine ⟨?_, hp, hf⟩
  rw [run_specs_append ora bdm l1 (sp :: l2) w, hpre]
  simp only [run_specs, hcol, hfail]

/-- Witness for C8: the first specification's open fails in a world where
only `data` exists; the run over the first two specifications aborts with the
open error, prints nothing and creates no file entry. -/
theorem claim_c8_witness :
    run_specs ⟨fun _ => false, fun _ => true⟩ (base_map ⟨[], [], [], [], []⟩)
        ([] ++ ⟨"PLAIN", .PLAIN, "string", .utf8⟩ ::
          [⟨"PLAIN", .PLAIN, "float", .float32⟩]) ⟨[["data"]], [], []⟩ =
      (⟨[["data", "PLAIN"], ["data"]], [], []⟩,
        some (.open_failed "data/PLAIN/string.parquet")) ∧
    (⟨[["data", "PLAIN"], ["data"]], [], []⟩ : World).prints =
      (⟨[["data"]], [], []⟩ : World).prints ∧
    ((⟨[["data", "PLAIN"], ["data"]], [], []⟩ : World).files =
        (⟨[["data"]], [], []⟩ : World).files ∨
      (⟨[["data", "PLAIN"], ["data"]], [], []⟩ : World).files =
        set_file (⟨[["data"]], [], []⟩ : World).files
          (spec_filename ⟨"PLAIN", .PLAIN, "string", .utf8⟩) none) :=
  claim_c8_abort ⟨fun _ => false, fun _ => true⟩ (base_map ⟨[], [], [], [], []⟩)
    [] [⟨"PLAIN", .PLAIN, "float", .float32⟩] ⟨"PLAIN", .PLAIN, "string", .utf8⟩
    (.string_col []) ⟨[["data"]], [], []⟩ ⟨[["data"]], [], []⟩
    ⟨[["data", "PLAIN"], ["data"]], [], []⟩
    (.open_failed "data/PLAIN/string.parquet") rfl rfl (by decide)

/-- C9: the program is deterministic — equal initial states give identical
results — and a fully successful run prints exactly one line
`Wrote data/<encoding-name>/<type-name>.parquet` per specification, in
specification-table order, appended to the initial output. -/
theorem claim_c9_determinism :
    (∀ (ora : Oracle) (fuel : Nat) (w0 w0' : World), w0 = w0' →
      main_run ora fuel w0 = main_run ora fuel w0') ∧
    ∀ (fuel : Nat) (w0 : World), ["data"] ∈ w0.dirs →
      (main_run all_ok fuel w0).map (fun r => (r.1.prints, r.2)) =
        (gen_base_data rng_stream fuel num_rows 0).map
          (fun _ => (w0.prints ++ specs.map print_line, none)) := by
  constructor
  · intro ora fuel w0 w0' h
    rw [h]
  · intro fuel w0 hdata
    unfold main_run run_main
    cases hgen : gen_base_data rng_stream fuel num_rows 0 with
    | none => simp
    | some bds =>
      simp only [Option.map_some']
      obtain ⟨w1, hrun, hpr, -⟩ := run_specs_all_ok bds.1 specs w0 hdata
        (fun sp hsp => map_at_base_isSome bds.1 sp hsp)
      rw [hrun]
      simp [hpr]

/-- Witness for C9 at a world containing only the directory `data`. -/
theorem claim_c9_witness :
    (main_run all_ok 1 ⟨[["data"]], [], []⟩).map (fun r => (r.1.prints, r.2)) =
      (gen_base_data rng_stream 1 num_rows 0).map
        (fun _ => ((⟨[["data"]], [], []⟩ : World).prints ++ specs.map print_line,
          none)) ∧
    main_run all_ok 1 ⟨[["data"]], [], []⟩ = main_run all_ok 1 ⟨[["data"]], [], []⟩ :=
  ⟨claim_c9_determinism.2 1 ⟨[["data"]], [], []⟩ (by simp),
   claim_c9_determinism.1 all_ok 1 ⟨[["data"]], [], []⟩ ⟨[["data"]], [], []⟩ rfl⟩

/-- C10: every specification's type name is one of the five keys under which a
column was pre-generated, so the keyed lookup `map::at` succeeds for each of
the 22 specifications and returns the pre-generated column of the matching
type, shared across every specification with that type name. -/
theorem claim_c10_lookup (bd : BaseData) (sp : ColumnSpec) (hsp : sp ∈ specs) :
    specs.length = 22 ∧
    sp.type_name ∈ ["int32", "float", "int64", "string", "binary"] ∧
    ∃ col, map_at (base_map bd) sp.type_name = some col ∧
      (sp.type_name = "int32" → col = .int32_col bd.int32_col) ∧
      (sp.type_name = "float" → col = .float_col bd.float_col) ∧
      (sp.type_name = "int64" → col = .int64_col bd.int64_col) ∧
      (sp.type_name = "string" → col = .string_col bd.string_col) ∧
      (sp.type_name = "binary" → col = .binary_col bd.binary_col) := by
  fin_cases hsp <;>
    exact ⟨rfl, by decide, _, rfl, by simp, by simp, by simp, by simp, by simp⟩

/-- Witness for C10 at the last specification and empty base columns. -/
theorem claim_c10_witness :
    specs.length = 22 ∧
    (⟨"DELTA_LENGTH_BYTE_ARRAY", .DELTA_LENGTH_BYTE_ARRAY, "binary",
        .binary⟩ : ColumnSpec).type_name ∈
      ["int32", "float", "int64", "string", "binary"] ∧
    ∃ col, map_at (base_map ⟨[], [], [], [], []⟩)
        (⟨"DELTA_LENGTH_BYTE_ARRAY", .DELTA_LENGTH_BYTE_ARRAY, "binary",
          .binary⟩ : ColumnSpec).type_name = some col ∧
      ((⟨"DELTA_LENGTH_BYTE_ARRAY", .DELTA_LENGTH_BYTE_ARRAY, "binary",
          .binary⟩ : ColumnSpec).type_name = "int32" →
        col = .int32_col (⟨[], [], [], [], []⟩ : BaseData).int32_col) ∧
      ((⟨"DELTA_LENGTH_BYTE_ARRAY", .DELTA_LENGTH_BYTE_ARRAY, "binary",
          .binary⟩ : ColumnSpec).type_name = "float" →
        col = .float_col (⟨[], [], [], [], []⟩ : BaseData).float_col) ∧
      ((⟨"DELTA_LENGTH_BYTE_ARRAY", .DELTA_LENGTH_BYTE_ARRAY, "binary",
          .binary⟩ : ColumnSpec).type_name = "int64" →
        col = .int64_col (⟨[], [], [], [], []⟩ : BaseData).int64_col) ∧
      ((⟨"DELTA_LENGTH_BYTE_ARRAY", .DELTA_LENGTH_BYTE_ARRAY, "binary",
          .binary⟩ : ColumnSpec).type_name = "string" →
        col = .string_col (⟨[], [], [], [], []⟩ : BaseData).string_col) ∧
      ((⟨"DELTA_LENGTH_BYTE_ARRAY", .DELTA_LENGTH_BYTE_ARRAY, "binary",
          .binary⟩ : ColumnSpec).type_name = "binary" →
        col = .binary_col (⟨[], [], [], [], []⟩ : BaseData).binary_col) :=
  claim_c10_lookup ⟨[], [], [], [], []⟩
    ⟨"DELTA_LENGTH_BYTE_ARRAY", .DELTA_LENGTH_BYTE_ARRAY, "binary", .binary⟩
    (by decide)

end ParquetGolden

